import Mathlib

/-
Shallow embedding of the price-ec2 cost engine (src/price_ec2.py and the
earlier snapshot src/price-ec2.py).

Modelling conventions:
- Python floats are modelled as `Option ℚ`: `some q` is a finite value and
  `none` is the NaN sentinel.  `fadd` and `fmul` propagate `none` exactly as
  IEEE addition and multiplication propagate NaN.
- Python exceptions are modelled with `Except Err`.
- Python strings are Lean strings; `str.lower()` is `strLower` (the source
  only ever lowercases ASCII catalog unit strings).
-/

deriving instance DecidableEq for Except

namespace PriceEc2

/-- Float addition with NaN propagation: NaN plus anything is NaN. -/
def fadd : Option ℚ → Option ℚ → Option ℚ
  | some a, some b => some (a + b)
  | _, _ => none

/-- Float multiplication with NaN propagation: NaN times anything is NaN. -/
def fmul : Option ℚ → Option ℚ → Option ℚ
  | some a, some b => some (a * b)
  | _, _ => none

/-- Model of Python str.lower for the ASCII catalog strings used by the
program: lowercase every character (Char.toLower maps only the basic latin
letters, exactly the characters occurring in catalog units). -/
def strLower (s : String) : String := ⟨s.data.map Char.toLower⟩

/-- A lowered character is not an upper-case basic latin letter. -/
theorem toLower_not_upper (c : Char) :
    ¬((Char.toLower c).toNat ≥ 65 ∧ (Char.toLower c).toNat ≤ 90) := by
  simp only [Char.toLower]
  split
  next h =>
    obtain ⟨h1, h2⟩ := h
    generalize c.toNat = n at h1 h2 ⊢
    interval_cases n <;> decide
  next h => exact h

/-- Char.toLower is idempotent. -/
theorem toLower_idem (c : Char) : (Char.toLower c).toLower = Char.toLower c := by
  have h := toLower_not_upper c
  generalize Char.toLower c = d at h ⊢
  simp only [Char.toLower]
  exact if_neg h

/-- strLower is idempotent. -/
theorem strLower_idem (s : String) : strLower (strLower s) = strLower s := by
  unfold strLower
  simp [List.map_map, Function.comp_def, toLower_idem]

/-- Runtime errors raised by the engine (Python raises Exception with a
formatted message; we keep the payloads structurally). -/
inductive Err where
  | keyError (key : String)
  | periodMismatch (a b : String)
  | skuCardinality (found : Nat) (filters : List (String × String)) (expected : Nat)
  | unknownStorageType (t : String)
deriving DecidableEq, Repr

/-- Cost value: a dollar amount (None is the NaN sentinel) per billing
period; corresponds to class Cost in the source. -/
structure Cost where
  dollars : Option ℚ
  per : String
deriving DecidableEq, Repr

/-- Cost constructor: Cost.__init__ lowercases the unit string. -/
def Cost.mk' (dollars : Option ℚ) (per : String) : Cost :=
  ⟨dollars, strLower per⟩

/-- The fixed hour-equivalent factor table Cost._factors:
hr = hrs = hours = 1, day = 24, mo = 24 * 30 = 720, yr = 24 * 365 = 8760. -/
def factors : List (String × ℚ) :=
  [("hr", 1), ("hrs", 1), ("hours", 1), ("day", 24), ("mo", 24 * 30), ("yr", 24 * 365)]

/-- Cost._convert: no-op when already in the target period, otherwise
multiply by the ratio of the factor-table entries; a period missing from
the table is a KeyError. -/
def Cost.convert (c : Cost) (tgt : String) : Except Err Cost :=
  if c.per = strLower tgt then .ok c
  else
    match factors.lookup (strLower tgt) with
    | none => .error (.keyError (strLower tgt))
    | some ft =>
      match factors.lookup c.per with
      | none => .error (.keyError c.per)
      | some fp => .ok (Cost.mk' (fmul (some (ft / fp)) c.dollars) tgt)

/-- Cost.per_day. -/
def Cost.per_day (c : Cost) : Except Err Cost := c.convert "Day"

/-- Cost.per_hour. -/
def Cost.per_hour (c : Cost) : Except Err Cost := c.convert "Hrs"

/-- Cost.per_month. -/
def Cost.per_month (c : Cost) : Except Err Cost := c.convert "Mo"

/-- Cost.__add__: periods must agree, otherwise an error is raised. -/
def Cost.add (a b : Cost) : Except Err Cost :=
  if a.per ≠ b.per then .error (.periodMismatch a.per b.per)
  else .ok (Cost.mk' (fadd a.dollars b.dollars) a.per)

/-- Cost.__mul__: scale the amount by a scalar, period unchanged. -/
def Cost.mul (c : Cost) (k : ℚ) : Cost :=
  Cost.mk' (fmul c.dollars (some k)) c.per

/-- just_one (src/price_ec2.py): empty list gives Cost(nan, per), otherwise
fold the list with Cost addition starting from the head. -/
def just_one (costs : List Cost) (per : String) : Except Err Cost :=
  match costs with
  | [] => .ok (Cost.mk' none per)
  | c :: rest => rest.foldlM Cost.add c

/-- Instance.simple_costs: reduce instance and storage dimension lists,
convert both to per-day and add for the total, and take the storage cost
alone as the actual cost when the resource is not running. -/
def simple_costs (instanceCosts storageCosts : List Cost) (running : Bool) :
    Except Err (Cost × Cost × Cost × Cost) :=
  match just_one instanceCosts "Hrs" with
  | .error e => .error e
  | .ok instance_cost =>
    match just_one storageCosts "Mo" with
    | .error e => .error e
    | .ok storage_cost =>
      match instance_cost.per_day with
      | .error e => .error e
      | .ok icd =>
        match storage_cost.per_day with
        | .error e => .error e
        | .ok scd =>
          match icd.add scd with
          | .error e => .error e
          | .ok total_cost =>
            .ok (instance_cost, storage_cost, total_cost,
              if running then total_cost else storage_cost)

/-- A period string is recognized when it is a key of the factor table. -/
def recognized (s : String) : Prop := (factors.lookup s).isSome = true

instance (s : String) : Decidable (recognized s) := by
  unfold recognized; infer_instance

/-- Every factor-table entry is positive. -/
theorem factors_lookup_pos {s : String} {f : ℚ} (h : factors.lookup s = some f) :
    0 < f := by
  simp only [factors, List.lookup] at h
  repeat' split at h
  all_goals simp_all
  all_goals norm_num [← h]

/-- Every factor-table key is already lowercase. -/
theorem recognized_lower {s : String} (h : recognized s) : strLower s = s := by
  unfold recognized at h
  simp only [factors, List.lookup] at h
  repeat' split at h
  all_goals simp_all
  all_goals decide

/-- Conversion formula shared by both branches of Cost._convert: when both
periods are in the factor table, conversion multiplies the amount by the
ratio of the target and source factors. -/
theorem convert_formula (c : Cost) (p : String) {f0 fp : ℚ}
    (h0 : factors.lookup c.per = some f0) (hp : factors.lookup p = some fp)
    (hlp : strLower p = p) :
    c.convert p = .ok ⟨fmul (some (fp / f0)) c.dollars, p⟩ := by
  unfold Cost.convert
  simp only [hlp]
  by_cases hper : c.per = p
  · subst hper
    rw [if_pos rfl]
    have hsame : f0 = fp := by rw [h0] at hp; exact (Option.some.inj hp)
    subst hsame
    have hf0 : f0 ≠ 0 := ne_of_gt (factors_lookup_pos h0)
    obtain ⟨d, per⟩ := c
    cases d with
    | none => simp [fmul]
    | some q => simp [fmul, div_self hf0]
  · rw [if_neg hper, hp, h0]
    simp [Cost.mk', hlp]

/-- C1: period conversion is correct and closed over the factor table
(hr, hrs, hours = 1; day = 24; mo = 720; yr = 8760): conversion to a
recognized period multiplies the amount by factor(target) / factor(source)
and carries the target period, conversion to the own period is the
identity, and conversion round-trips agree on the amount. -/
theorem convert_correct (c : Cost) (p p1 p2 : String)
    (hc : recognized c.per) (hp : recognized p) (h1 : recognized p1) (h2 : recognized p2) :
    (∃ f0 fp, factors.lookup c.per = some f0 ∧ factors.lookup p = some fp ∧
      c.convert p = .ok ⟨fmul (some (fp / f0)) c.dollars, p⟩) ∧
    c.convert c.per = .ok c ∧
    (∃ c1 c2 c2', c.convert p1 = .ok c1 ∧ c1.convert p2 = .ok c2 ∧
      c.convert p2 = .ok c2' ∧ c2.dollars = c2'.dollars) := by
  obtain ⟨f0, hf0⟩ := Option.isSome_iff_exists.mp hc
  obtain ⟨fp, hfp⟩ := Option.isSome_iff_exists.mp hp
  obtain ⟨f1, hf1⟩ := Option.isSome_iff_exists.mp h1
  obtain ⟨f2, hf2⟩ := Option.isSome_iff_exists.mp h2
  refine ⟨⟨f0, fp, hf0, hfp, convert_formula c p hf0 hfp (recognized_lower hp)⟩, ?_, ?_⟩
  · unfold Cost.convert
    simp [recognized_lower hc]
  · refine ⟨_, _, _, convert_formula c p1 hf0 hf1 (recognized_lower h1),
      convert_formula _ p2 hf1 hf2 (recognized_lower h2),
      convert_formula c p2 hf0 hf2 (recognized_lower h2), ?_⟩
    have hn0 : f0 ≠ 0 := ne_of_gt (factors_lookup_pos hf0)
    have hn1 : f1 ≠ 0 := ne_of_gt (factors_lookup_pos hf1)
    cases c.dollars with
    | none => simp [fmul]
    | some d =>
      simp only [fmul]
      congr 1
      field_simp
      ring

/-- Witness for convert_correct at Cost(2, hr) and periods day, hrs, mo. -/
theorem convert_correct_witness :
    (∃ f0 fp, factors.lookup (Cost.mk' (some 2) "hr").per = some f0 ∧
      factors.lookup "day" = some fp ∧
      (Cost.mk' (some 2) "hr").convert "day" =
        .ok ⟨fmul (some (fp / f0)) (Cost.mk' (some 2) "hr").dollars, "day"⟩) ∧
    (Cost.mk' (some 2) "hr").convert (Cost.mk' (some 2) "hr").per =
      .ok (Cost.mk' (some 2) "hr") ∧
    (∃ c1 c2 c2', (Cost.mk' (some 2) "hr").convert "hrs" = .ok c1 ∧
      c1.convert "mo" = .ok c2 ∧
      (Cost.mk' (some 2) "hr").convert "mo" = .ok c2' ∧ c2.dollars = c2'.dollars) :=
  convert_correct (Cost.mk' (some 2) "hr") "day" "hrs" "mo"
    (by decide) (by decide) (by decide) (by decide)

/-- C6: Cost addition fails with a period-mismatch error exactly when the
two periods differ, and otherwise returns the sum of the amounts under the
shared period. -/
theorem add_period_check (a b : Cost) :
    (a.per ≠ b.per → a.add b = .error (.periodMismatch a.per b.per)) ∧
    (a.per = b.per → a.add b = .ok (Cost.mk' (fadd a.dollars b.dollars) a.per)) ∧
    (a.per = b.per → strLower a.per = a.per →
      a.add b = .ok ⟨fadd a.dollars b.dollars, a.per⟩) := by
  refine ⟨fun h => ?_, fun h => ?_, fun h hl => ?_⟩
  · simp [Cost.add, h]
  · simp [Cost.add, h]
  · simp [Cost.add, h, Cost.mk', h ▸ hl]

/-- Witness for add_period_check: 1/hr plus 2/day fails, 1/hr plus 2/hr
is 3/hr. -/
theorem add_period_check_witness :
    ((Cost.mk' (some 1) "hr").add (Cost.mk' (some 2) "day") =
      .error (.periodMismatch (Cost.mk' (some 1) "hr").per (Cost.mk' (some 2) "day").per)) ∧
    ((Cost.mk' (some 1) "hr").add (Cost.mk' (some 2) "hr") =
      .ok ⟨fadd (some 1) (some 2), (Cost.mk' (some 1) "hr").per⟩) :=
  ⟨(add_period_check _ _).1 (by decide),
   (add_period_check (Cost.mk' (some 1) "hr") (Cost.mk' (some 2) "hr")).2.2
     (by decide) (by decide)⟩

/-- Folding same-period costs with Cost.add never fails and adds the
amounts with fadd. -/
theorem foldlM_add_same {q : String} (hq : strLower q = q) (rest : List Cost) :
    ∀ (c : Cost), c.per = q → (∀ x ∈ rest, x.per = q) →
      rest.foldlM Cost.add c =
        .ok ⟨rest.foldl (fun acc x => fadd acc x.dollars) c.dollars, q⟩ := by
  induction rest with
  | nil =>
    intro c hc _
    obtain ⟨d, per⟩ := c
    simp only at hc
    subst hc
    rfl
  | cons x rest ih =>
    intro c hc hall
    have hx : x.per = q := hall x (by simp)
    have hadd : c.add x = .ok (Cost.mk' (fadd c.dollars x.dollars) c.per) := by
      simp [Cost.add, hc, hx]
    have hstep : (x :: rest).foldlM Cost.add c =
        rest.foldlM Cost.add (Cost.mk' (fadd c.dollars x.dollars) c.per) := by
      rw [List.foldlM_cons, hadd]
      rfl
    rw [hstep, ih (Cost.mk' (fadd c.dollars x.dollars) c.per)
      (by simp [Cost.mk', hc, hq]) (fun y hy => hall y (by simp [hy]))]
    rfl

/-- C7: reducing an empty cost sequence yields the NaN sentinel in the
caller-supplied default period, and reducing a non-empty sequence of
same-period costs yields that period with the fadd-fold of the amounts. -/
theorem reduce_spec :
    (∀ per : String, just_one [] per = .ok (Cost.mk' none per)) ∧
    (∀ (per q : String) (c : Cost) (rest : List Cost),
      strLower q = q → c.per = q → (∀ x ∈ rest, x.per = q) →
      just_one (c :: rest) per =
        .ok ⟨rest.foldl (fun acc x => fadd acc x.dollars) c.dollars, q⟩) := by
  refine ⟨fun per => rfl, fun per q c rest hq hc hall => ?_⟩
  unfold just_one
  exact foldlM_add_same hq rest c hc hall

/-- Witness for reduce_spec: reducing 1/day and 2/day with default period
hr gives 3/day. -/
theorem reduce_spec_witness :
    just_one [] "hr" = .ok (Cost.mk' none "hr") ∧
    just_one [⟨some 1, "day"⟩, ⟨some 2, "day"⟩] "hr" =
      .ok ⟨[(⟨some 2, "day"⟩ : Cost)].foldl (fun acc x => fadd acc x.dollars) (some 1), "day"⟩ :=
  ⟨reduce_spec.1 "hr",
   reduce_spec.2 "hr" "day" ⟨some 1, "day"⟩ [⟨some 2, "day"⟩]
     (by decide) rfl (by decide)⟩

/-- Concrete evaluation of simple_costs on the stopped example. -/
theorem simple_costs_example_stopped :
    simple_costs [Cost.mk' (some 1) "Hrs"] [Cost.mk' (some 24) "Day"] false =
      .ok (⟨some 1, "hrs"⟩, ⟨some 24, "day"⟩, ⟨some 48, "day"⟩, ⟨some 24, "day"⟩) := by
  have e1 : strLower "Hrs" = "hrs" := by decide
  have e2 : strLower "Day" = "day" := by decide
  have e3 : strLower "day" = "day" := by decide
  have j1 : just_one [(⟨some 1, "hrs"⟩ : Cost)] "Hrs" = .ok (⟨some 1, "hrs"⟩ : Cost) := by
    decide
  have j2 : just_one [(⟨some 24, "day"⟩ : Cost)] "Mo" = .ok (⟨some 24, "day"⟩ : Cost) := by
    decide
  simp [simple_costs, Cost.mk', e1, e2, e3, j1, j2, Cost.per_day, Cost.convert, Cost.add,
    fadd, fmul, factors, List.lookup]
  norm_num

/-- Concrete evaluation of simple_costs on the running example. -/
theorem simple_costs_example_running :
    simple_costs [Cost.mk' (some 1) "Hrs"] [Cost.mk' (some 24) "Day"] true =
      .ok (⟨some 1, "hrs"⟩, ⟨some 24, "day"⟩, ⟨some 48, "day"⟩, ⟨some 48, "day"⟩) := by
  have e1 : strLower "Hrs" = "hrs" := by decide
  have e2 : strLower "Day" = "day" := by decide
  have e3 : strLower "day" = "day" := by decide
  have j1 : just_one [(⟨some 1, "hrs"⟩ : Cost)] "Hrs" = .ok (⟨some 1, "hrs"⟩ : Cost) := by
    decide
  have j2 : just_one [(⟨some 24, "day"⟩ : Cost)] "Mo" = .ok (⟨some 24, "day"⟩ : Cost) := by
    decide
  simp [simple_costs, Cost.mk', e1, e2, e3, j1, j2, Cost.per_day, Cost.convert, Cost.add,
    fadd, fmul, factors, List.lookup]
  norm_num

/-- C5: a successful simple_costs run reduces the instance and storage
dimension lists, sets the total to the sum of both per-day conversions,
and takes the storage cost alone as the actual cost when not running; in
particular 1/hr instance and 24/day storage give 24/day stopped and
48/day running. -/
theorem effective_cost_by_state (ics scs : List Cost) (running : Bool)
    (i s t a : Cost) (h : simple_costs ics scs running = .ok (i, s, t, a)) :
    (just_one ics "Hrs" = .ok i ∧ just_one scs "Mo" = .ok s ∧
      (∃ idc sdc, i.per_day = .ok idc ∧ s.per_day = .ok sdc ∧ idc.add sdc = .ok t) ∧
      a = (if running then t else s)) ∧
    simple_costs [Cost.mk' (some 1) "Hrs"] [Cost.mk' (some 24) "Day"] false =
      .ok (⟨some 1, "hrs"⟩, ⟨some 24, "day"⟩, ⟨some 48, "day"⟩, ⟨some 24, "day"⟩) ∧
    simple_costs [Cost.mk' (some 1) "Hrs"] [Cost.mk' (some 24) "Day"] true =
      .ok (⟨some 1, "hrs"⟩, ⟨some 24, "day"⟩, ⟨some 48, "day"⟩, ⟨some 48, "day"⟩) := by
  refine ⟨?_, simple_costs_example_stopped, simple_costs_example_running⟩
  unfold simple_costs at h
  split at h
  next e h1 => exact Except.noConfusion h
  next ic h1 =>
    split at h
    next e h2 => exact Except.noConfusion h
    next sc h2 =>
      split at h
      next e h3 => exact Except.noConfusion h
      next icd h3 =>
        split at h
        next e h4 => exact Except.noConfusion h
        next scd h4 =>
          split at h
          next e h5 => exact Except.noConfusion h
          next tc h5 =>
            simp only [Except.ok.injEq, Prod.mk.injEq] at h
            obtain ⟨hi, hs, ht, ha⟩ := h
            subst hi; subst hs; subst ht
            exact ⟨h1, h2, ⟨icd, scd, h3, h4, h5⟩, ha.symm⟩

/-- Witness for effective_cost_by_state at the stopped example from the
specification. -/
theorem effective_cost_by_state_witness :
    (just_one [Cost.mk' (some 1) "Hrs"] "Hrs" = .ok ⟨some 1, "hrs"⟩ ∧
      just_one [Cost.mk' (some 24) "Day"] "Mo" = .ok ⟨some 24, "day"⟩ ∧
      (∃ idc sdc, (⟨some 1, "hrs"⟩ : Cost).per_day = .ok idc ∧
        (⟨some 24, "day"⟩ : Cost).per_day = .ok sdc ∧
        idc.add sdc = .ok ⟨some 48, "day"⟩) ∧
      (⟨some 24, "day"⟩ : Cost) =
        (if false then (⟨some 48, "day"⟩ : Cost) else ⟨some 24, "day"⟩)) ∧
    simple_costs [Cost.mk' (some 1) "Hrs"] [Cost.mk' (some 24) "Day"] false =
      .ok (⟨some 1, "hrs"⟩, ⟨some 24, "day"⟩, ⟨some 48, "day"⟩, ⟨some 24, "day"⟩) ∧
    simple_costs [Cost.mk' (some 1) "Hrs"] [Cost.mk' (some 24) "Day"] true =
      .ok (⟨some 1, "hrs"⟩, ⟨some 24, "day"⟩, ⟨some 48, "day"⟩, ⟨some 48, "day"⟩) :=
  effective_cost_by_state [Cost.mk' (some 1) "Hrs"] [Cost.mk' (some 24) "Day"] false
    ⟨some 1, "hrs"⟩ ⟨some 24, "day"⟩ ⟨some 48, "day"⟩ ⟨some 24, "day"⟩ simple_costs_example_stopped

/-- C10: every Cost built by the constructor carries a lower-cased unit,
every Cost-producing operation (addition, scalar multiplication, period
conversion) again yields a lower-cased unit, and construction is
case-insensitive in the raw unit string (Hrs and GB-Mo behave exactly like
hrs and gb-mo). -/
theorem cost_lowercase :
    (∀ (d : Option ℚ) (u : String), (Cost.mk' d u).per = strLower u) ∧
    (∀ (d : Option ℚ) (u : String), strLower (Cost.mk' d u).per = (Cost.mk' d u).per) ∧
    (∀ (d : Option ℚ) (u : String), Cost.mk' d (strLower u) = Cost.mk' d u) ∧
    (∀ (a b c' : Cost), a.add b = .ok c' → strLower c'.per = c'.per) ∧
    (∀ (c : Cost) (k : ℚ), strLower (Cost.mul c k).per = (Cost.mul c k).per) ∧
    (∀ (c : Cost) (p : String) (c' : Cost),
      c.convert p = .ok c' → strLower c'.per = c'.per) ∧
    (∀ (d1 d2 : Option ℚ) (u : String),
      (Cost.mk' d1 u).per = (Cost.mk' d2 (strLower u)).per) ∧
    (∀ d, Cost.mk' d "Hrs" = Cost.mk' d "hrs") ∧
    (∀ d, Cost.mk' d "GB-Mo" = Cost.mk' d "gb-mo") := by
  refine ⟨fun d u => rfl, fun d u => strLower_idem u, fun d u => ?_, fun a b c' h => ?_,
    fun c k => strLower_idem c.per, fun c p c' h => ?_, fun d1 d2 u => ?_, fun d => ?_,
    fun d => ?_⟩
  · simp [Cost.mk', strLower_idem]
  · unfold Cost.add at h
    split at h
    · exact Except.noConfusion h
    · obtain rfl := (Except.ok.inj h)
      exact strLower_idem a.per
  · unfold Cost.convert at h
    split at h
    next hcond =>
      obtain rfl := (Except.ok.inj h)
      rw [hcond]
      exact strLower_idem p
    next hcond =>
      split at h
      · exact Except.noConfusion h
      next ft hft =>
        split at h
        · exact Except.noConfusion h
        next fp hfp =>
          obtain rfl := (Except.ok.inj h)
          exact strLower_idem p
  · simp [Cost.mk', strLower_idem]
  · simp [Cost.mk']
    decide
  · simp [Cost.mk']
    decide

/-- Witness for cost_lowercase at concrete units and a concrete use of
addition and conversion. -/
theorem cost_lowercase_witness :
    (Cost.mk' (some 1) "HR").per = strLower "HR" ∧
    Cost.mk' (some 1) "Hrs" = Cost.mk' (some 1) "hrs" ∧
    Cost.mk' (some 1) "GB-Mo" = Cost.mk' (some 1) "gb-mo" ∧
    (∃ c', (Cost.mk' (some 1) "hr").add (Cost.mk' (some 2) "hr") = .ok c' ∧
      strLower c'.per = c'.per) ∧
    (∃ c', (Cost.mk' (some 2) "hr").convert "Day" = .ok c' ∧ strLower c'.per = c'.per) :=
  ⟨cost_lowercase.1 (some 1) "HR",
   cost_lowercase.2.2.2.2.2.2.2.1 (some 1),
   cost_lowercase.2.2.2.2.2.2.2.2 (some 1),
   ⟨_, rfl, cost_lowercase.2.2.2.1 (Cost.mk' (some 1) "hr") (Cost.mk' (some 2) "hr") _ rfl⟩,
   ⟨_, rfl, cost_lowercase.2.2.2.2.2.1 (Cost.mk' (some 2) "hr") "Day" _ rfl⟩⟩

/-- Catalog product: a SKU identifier with its attribute map (the entries
of the offer-file products object). -/
structure Product where
  sku : String
  attributes : List (String × String)
deriving DecidableEq, Repr

/-- Raw price dimension: price-per-unit in USD (parsed decimal, None for
NaN) and unit string. -/
structure PriceDim where
  usd : Option ℚ
  unit : String
deriving DecidableEq, Repr

/-- Catalog: the products list and the OnDemand terms map, keyed by SKU;
each SKU maps to a list of terms, each term being its priceDimensions
values. -/
structure Catalog where
  products : List Product
  onDemand : List (String × List (List PriceDim))
deriving DecidableEq, Repr

/-- Costs yielded for a SKU: for every OnDemand term and every price
dimension, Cost(pricePerUnit.USD, unit); this is the inner loop shared by
every unit_price and storage_costs method. -/
def skuCosts (cat : Catalog) (sku : String) : List Cost :=
  ((cat.onDemand.lookup sku).getD []).flatMap
    (fun term => term.map (fun d => Cost.mk' d.usd d.unit))

/-- A product satisfies a filter list when every (field, value) pair
matches its attribute map exactly (TERM_MATCH semantics; also the shape of
the inline match predicates in src/price-ec2.py). -/
def satisfiesFilters (filters : List (String × String)) (p : Product) : Bool :=
  filters.all (fun kv => p.attributes.lookup kv.1 == some kv.2)

/-- Single-SKU resolution: filter the catalog products, require exactly one
match, then emit every dimension of every OnDemand term of that SKU
(fetch_pricing_ in src/price_ec2.py; the unit_price methods in
src/price-ec2.py). -/
def resolve (cat : Catalog) (filters : List (String × String)) :
    Except Err (List Cost) :=
  let skus := cat.products.filter (satisfiesFilters filters)
  if skus.length = 1 then .ok (skus.flatMap (fun p => skuCosts cat p.sku))
  else .error (.skuCardinality skus.length filters 1)

/-- Products whose usagetype attribute is one of the search types (the
filter used by Volume.unit_price and DBInstance._storage_costs in
src/price-ec2.py). -/
def skuMatchesIn (cat : Catalog) (searchTypes : List String) : List Product :=
  cat.products.filter
    (fun p => (p.attributes.lookup "usagetype").any (fun v => searchTypes.contains v))

/-- Multi-filter-set resolution: the total number of matched SKUs must
equal the number of search types, then every dimension of every OnDemand
term of every matched SKU is emitted (Volume.unit_price in
src/price-ec2.py). -/
def resolveMulti (cat : Catalog) (searchTypes : List String) :
    Except Err (List Cost) :=
  let skus := skuMatchesIn cat searchTypes
  if skus.length = searchTypes.length then
    .ok (skus.flatMap (fun p => skuCosts cat p.sku))
  else
    .error (.skuCardinality skus.length
      (searchTypes.map (fun t => ("usagetype", t))) searchTypes.length)

/-- C3: SKU resolution cardinality is a hard error, never a silent pick:
resolution succeeds exactly when the match count equals the expectation
(one SKU for the single variant, one per filter set for the multi
variant), the error carries the observed count and the filters, and on
success every OnDemand term dimension of the matched SKUs is emitted
unchanged. -/
theorem sku_cardinality (cat : Catalog) (filters : List (String × String))
    (searchTypes : List String) :
    ((cat.products.filter (satisfiesFilters filters)).length = 1 →
      resolve cat filters =
        .ok ((cat.products.filter (satisfiesFilters filters)).flatMap
          (fun p => skuCosts cat p.sku))) ∧
    ((cat.products.filter (satisfiesFilters filters)).length ≠ 1 →
      resolve cat filters =
        .error (.skuCardinality (cat.products.filter (satisfiesFilters filters)).length
          filters 1)) ∧
    ((skuMatchesIn cat searchTypes).length = searchTypes.length →
      resolveMulti cat searchTypes =
        .ok ((skuMatchesIn cat searchTypes).flatMap (fun p => skuCosts cat p.sku))) ∧
    ((skuMatchesIn cat searchTypes).length ≠ searchTypes.length →
      resolveMulti cat searchTypes =
        .error (.skuCardinality (skuMatchesIn cat searchTypes).length
          (searchTypes.map (fun t => ("usagetype", t))) searchTypes.length)) := by
  refine ⟨fun h => ?_, fun h => ?_, fun h => ?_, fun h => ?_⟩
  · simp [resolve, h]
  · simp [resolve, h]
  · simp [resolveMulti, h]
  · simp [resolveMulti, h]

/-- A two-product catalog used for concrete resolution checks. -/
def demoCatalog : Catalog :=
  { products :=
      [⟨"SKU1", [("usagetype", "BoxUsage:m5.large"), ("operatingSystem", "Linux")]⟩,
       ⟨"SKU2", [("usagetype", "EBS:VolumeUsage.gp2")]⟩],
    onDemand :=
      [("SKU1", [[⟨some (1/10), "Hrs"⟩]]),
       ("SKU2", [[⟨some (1/10), "GB-Mo"⟩]])] }

/-- Witness for sku_cardinality on the demo catalog: a filter matching one
product resolves to its dimensions, a filter matching none fails with
count 0, and the multi variant succeeds with one search type matching one
SKU. -/
theorem sku_cardinality_witness :
    resolve demoCatalog [("operatingSystem", "Linux")] =
      .ok ((demoCatalog.products.filter
        (satisfiesFilters [("operatingSystem", "Linux")])).flatMap
          (fun p => skuCosts demoCatalog p.sku)) ∧
    resolve demoCatalog [("operatingSystem", "Windows")] =
      .error (.skuCardinality
        (demoCatalog.products.filter
          (satisfiesFilters [("operatingSystem", "Windows")])).length
        [("operatingSystem", "Windows")] 1) ∧
    resolveMulti demoCatalog ["EBS:VolumeUsage.gp2"] =
      .ok ((skuMatchesIn demoCatalog ["EBS:VolumeUsage.gp2"]).flatMap
        (fun p => skuCosts demoCatalog p.sku)) :=
  ⟨(sku_cardinality demoCatalog [("operatingSystem", "Linux")] []).1 (by decide),
   (sku_cardinality demoCatalog [("operatingSystem", "Windows")] []).2.1 (by decide),
   (sku_cardinality demoCatalog [] ["EBS:VolumeUsage.gp2"]).2.2.1 (by decide)⟩

/-- Model of Python str.startswith: the candidate head is a list-level
initial segment of the string. -/
def strStarts (s p : String) : Bool := p.data.isPrefixOf s.data

/-- Classification of one storage price dimension (loop body shared by
EC2Instance.storage_costs and DBInstance.storage_costs): a unit starting
with gb- is scaled by the storage size and rewritten to the suffix after
the dash, a unit starting with iops- is scaled by the provisioned IOPS,
and any other unit passes through unchanged. -/
def classify (size iops : ℚ) (c : Cost) : String × Option ℚ :=
  if strStarts c.per "gb-" then (c.per.drop 3, fmul c.dollars (some size))
  else if strStarts c.per "iops-" then (c.per.drop 5, fmul c.dollars (some iops))
  else (c.per, c.dollars)

/-- Accumulate one contribution into the grouped sums, modelling
defaultdict(float): a missing key starts at 0.0, an existing key is
updated in place, a new key is appended. -/
def addGroup : List (String × Option ℚ) → String → Option ℚ → List (String × Option ℚ)
  | [], k, v => [(k, fadd (some 0) v)]
  | (k', v') :: rest, k, v =>
    if k' = k then (k', fadd v' v) :: rest else (k', v') :: addGroup rest k v

/-- Group a stream of (unit, contribution) pairs by unit, summing within
each group (the defaultdict accumulation loops in storage_costs). -/
def groupCosts (items : List (String × Option ℚ)) : List (String × Option ℚ) :=
  items.foldl (fun gs kv => addGroup gs kv.1 kv.2) []

/-- Turn the grouped sums into the storage cost list: an empty group set
yields the single Cost(0, Mo), otherwise one Cost per group. -/
def finishGroups (gs : List (String × Option ℚ)) : List Cost :=
  match gs with
  | [] => [Cost.mk' (some 0) "Mo"]
  | _ => gs.map (fun kv => Cost.mk' kv.2 kv.1)

/-- Volume as used by EC2Instance.storage_costs: size in GB, provisioned
IOPS, and the price dimensions its unit_price query returned (the query
itself is an external pricing call in src/price_ec2.py). -/
structure Volume where
  size : ℚ
  iops : ℚ
  costs : List Cost
deriving DecidableEq, Repr

/-- EC2Instance.storage_costs: classify every dimension of every volume
(scaled per volume), group by the resulting bare unit, and finish. -/
def ec2StorageCosts (volumes : List Volume) : List Cost :=
  finishGroups (groupCosts
    (volumes.flatMap (fun v => v.costs.map (classify v.size v.iops))))

/-- The fadd-sum of the contributions carrying a given unit key, starting
from 0.0 as defaultdict(float) does. -/
def sumFor (k : String) (items : List (String × Option ℚ)) : Option ℚ :=
  ((items.filter (fun kv => kv.1 == k)).map Prod.snd).foldl fadd (some 0)

/-- Looking up a key after one accumulation step: the stored value of that
key gains the contribution (from 0.0 when absent) and other keys are
untouched. -/
theorem addGroup_lookup (gs : List (String × Option ℚ)) (k k' : String) (v : Option ℚ) :
    (addGroup gs k v).lookup k' =
      if k' = k then
        match gs.lookup k with
        | some w => some (fadd w v)
        | none => some (fadd (some 0) v)
      else gs.lookup k' := by
  induction gs with
  | nil =>
    by_cases h : k' = k
    · subst h
      simp [addGroup, List.lookup_cons]
    · simp [addGroup, List.lookup_cons, beq_false_of_ne h, h]
  | cons hd tl ih =>
    obtain ⟨k0, v0⟩ := hd
    simp only [addGroup]
    by_cases h0 : k0 = k
    · subst h0
      rw [if_pos rfl]
      by_cases h : k' = k0
      · subst h
        simp [List.lookup_cons]
      · simp [List.lookup_cons, beq_false_of_ne h, h]
    · rw [if_neg h0]
      by_cases h : k' = k0
      · subst h
        simp [List.lookup_cons, if_neg h0]
      · simp [List.lookup_cons, beq_false_of_ne h,
          beq_false_of_ne (fun hh => h0 hh.symm), ih]

/-- Grouping characterization: after grouping, a unit key is present
exactly when some contribution carried it, and its value is the fadd-sum
of the contributions with that key. -/
theorem groupCosts_lookup (items : List (String × Option ℚ)) (k : String) :
    (groupCosts items).lookup k =
      if items.any (fun kv => kv.1 == k) then some (sumFor k items) else none := by
  induction items using List.reverseRecOn with
  | nil => simp [groupCosts, sumFor, List.lookup]
  | append_singleton items kv ih =>
    have hstep : groupCosts (items ++ [kv]) = addGroup (groupCosts items) kv.1 kv.2 := by
      simp [groupCosts, List.foldl_append]
    rw [hstep, addGroup_lookup, ih]
    have hsum : sumFor k (items ++ [kv]) =
        if kv.1 == k then fadd (sumFor k items) kv.2 else sumFor k items := by
      by_cases hb : kv.1 = k
      · simp [sumFor, List.filter_append, hb, List.foldl_append]
      · have : (kv.1 == k) = false := by simp [hb]
        simp [sumFor, List.filter_append, this]
    by_cases h : k = kv.1
    · subst h
      by_cases hany : items.any (fun kv2 => kv2.1 == kv.1) = true
      · simp [hany, hsum, ih]
      · have hanyf : items.any (fun kv2 => kv2.1 == kv.1) = false :=
          Bool.eq_false_iff.mpr hany
        have hfil : items.filter (fun kv2 => kv2.1 == kv.1) = [] := by
          rw [List.filter_eq_nil_iff]
          intro a ha
          simpa using List.any_eq_false.mp hanyf a ha
        have hzero : sumFor kv.1 items = some 0 := by simp [sumFor, hfil]
        simp [hanyf, hsum, hzero, ih]
    · have hbk : (kv.1 == k) = false := beq_false_of_ne (fun hk => h hk.symm)
      have hany2 : ((items ++ [kv]).any fun kv2 => kv2.1 == k) =
          (items.any fun kv2 => kv2.1 == k) := by
        rw [List.any_append]
        simp [hbk]
      rw [hany2, hsum, hbk]
      simp
      exact fun hk => absurd hk h

/-- C2: storage compound-unit expansion: a gb- dimension is scaled by the
storage size and rewritten to the suffix unit, an iops- dimension is
scaled by the provisioned IOPS, other dimensions pass through; all
contributions are grouped by the resulting bare unit and summed within
each group; an empty group set yields the single Cost(0, Mo); and the
gb-mo at 0.10 on 200 GB example expands to 20.0 per month. -/
theorem storage_expansion :
    (∀ (size iops : ℚ) (c : Cost), strStarts c.per "gb-" = true →
      classify size iops c = (c.per.drop 3, fmul c.dollars (some size))) ∧
    (∀ (size iops : ℚ) (c : Cost), strStarts c.per "gb-" = false →
      strStarts c.per "iops-" = true →
      classify size iops c = (c.per.drop 5, fmul c.dollars (some iops))) ∧
    (∀ (size iops : ℚ) (c : Cost), strStarts c.per "gb-" = false →
      strStarts c.per "iops-" = false →
      classify size iops c = (c.per, c.dollars)) ∧
    (∀ (volumes : List Volume),
      ec2StorageCosts volumes = finishGroups (groupCosts
        (volumes.flatMap (fun v => v.costs.map (classify v.size v.iops))))) ∧
    (∀ (items : List (String × Option ℚ)) (k : String),
      (groupCosts items).lookup k =
        if items.any (fun kv => kv.1 == k) then some (sumFor k items) else none) ∧
    finishGroups [] = [Cost.mk' (some 0) "Mo"] ∧
    ec2StorageCosts [⟨200, 0, [Cost.mk' (some (1/10)) "GB-Mo"]⟩] =
      [⟨some 20, "mo"⟩] := by
  refine ⟨fun size iops c h => ?_, fun size iops c h h2 => ?_,
    fun size iops c h h2 => ?_, fun volumes => rfl, groupCosts_lookup, rfl, ?_⟩
  · simp [classify, h]
  · simp [classify, h, h2]
  · simp [classify, h, h2]
  · have e : strLower "GB-Mo" = "gb-mo" := by decide
    have e2 : strLower "mo" = "mo" := by decide
    have hs : strStarts "gb-mo" "gb-" = true := by decide
    have hd : "gb-mo".drop 3 = "mo" := by decide
    simp [ec2StorageCosts, groupCosts, addGroup, finishGroups, classify, Cost.mk',
      e, e2, hs, hd, fmul, fadd]
    norm_num

/-- Witness for storage_expansion at a concrete gb- dimension, an iops-
dimension and a bare dimension. -/
theorem storage_expansion_witness :
    classify 200 0 (⟨some 1, "gb-mo"⟩ : Cost) =
      ((⟨some 1, "gb-mo"⟩ : Cost).per.drop 3,
        fmul (⟨some 1, "gb-mo"⟩ : Cost).dollars (some 200)) ∧
    classify 100 300 (⟨some 1, "iops-mo"⟩ : Cost) =
      ((⟨some 1, "iops-mo"⟩ : Cost).per.drop 5,
        fmul (⟨some 1, "iops-mo"⟩ : Cost).dollars (some 300)) ∧
    classify 100 300 (⟨some 1, "hrs"⟩ : Cost) = ("hrs", some 1) ∧
    ec2StorageCosts [⟨200, 0, [Cost.mk' (some (1/10)) "GB-Mo"]⟩] = [⟨some 20, "mo"⟩] :=
  ⟨storage_expansion.1 200 0 ⟨some 1, "gb-mo"⟩ (by decide),
   storage_expansion.2.1 100 300 ⟨some 1, "iops-mo"⟩ (by decide) (by decide),
   storage_expansion.2.2.1 100 300 ⟨some 1, "hrs"⟩ (by decide) (by decide),
   storage_expansion.2.2.2.2.2.2⟩

/-- Database descriptor fields used by storage pricing. -/
structure DBInstance where
  region : String
  multi_az : Bool
  storage_type : String
  size : ℚ
  iops : ℚ
deriving DecidableEq, Repr

/-- The region_usagetype table mapping regions to usage-type markers. -/
def region_usagetype : List (String × String) :=
  [("us-east-1", ""), ("us-east-2", "USE2-"), ("us-west-2", "USW2-"),
   ("eu-west-1", "EU-"), ("eu-west-2", "EUW2-"), ("ca-central-1", "CAN1-")]

/-- Storage search-type dispatch of DBInstance._storage_costs: io1, gp2
and standard map to fixed base names, anything else raises. -/
def dbSearchBases (storage_type : String) : Except Err (List String) :=
  if storage_type = "io1" then .ok ["PIOPS-Storage", "PIOPS"]
  else if storage_type = "gp2" then .ok ["GP2-Storage"]
  else if storage_type = "standard" then .ok ["StorageUsage"]
  else .error (.unknownStorageType storage_type)

/-- Usage-type marker for multi-AZ versus single-AZ RDS storage. -/
def dbPre (db : DBInstance) : String :=
  if db.multi_az then "RDS:Multi-AZ-" else "RDS:"

/-- Full search types: region marker, deployment marker, base name. -/
def mkSearchTypes (ru p : String) (bases : List String) : List String :=
  bases.map (fun t => ru ++ p ++ t)

/-- DBInstance._storage_costs with override_region given (the body
reached when the zero-match fallback guard is disabled): cardinality
check against the search-type count, then expand and group the matched
dimensions scaled by the allocated storage and provisioned IOPS. -/
def dbStorageCostsAt (cat : Catalog) (db : DBInstance) (region : String) :
    Except Err (List Cost) :=
  match dbSearchBases db.storage_type with
  | .error e => .error e
  | .ok bases =>
    match region_usagetype.lookup region with
    | none => .error (.keyError region)
    | some ru =>
      let searchTypes := mkSearchTypes ru (dbPre db) bases
      let skus := skuMatchesIn cat searchTypes
      if skus.length ≠ searchTypes.length then
        .error (.skuCardinality skus.length
          (searchTypes.map (fun t => ("usagetype", t))) searchTypes.length)
      else
        .ok (finishGroups (groupCosts
          ((skus.flatMap (fun p => skuCosts cat p.sku)).map
            (classify db.size db.iops))))

/-- DBInstance._storage_costs entry point (override_region None): when the
own region matches zero SKUs, retry once in the fixed reference region of
the continent marker (us goes to us-east-2, eu goes to eu-west-2) and
return Cost(NaN, Mo) when the region has neither marker; otherwise fall
through to the cardinality check and grouping (the source expresses the
retry as a recursive call with override_region set, which short-circuits
the zero-match guard; dbStorageCostsAt is exactly that overridden body). -/
def dbStorageCosts (cat : Catalog) (db : DBInstance) : Except Err (List Cost) :=
  match dbSearchBases db.storage_type with
  | .error e => .error e
  | .ok bases =>
    match region_usagetype.lookup db.region with
    | none => .error (.keyError db.region)
    | some ru =>
      let skus := skuMatchesIn cat (mkSearchTypes ru (dbPre db) bases)
      if skus.length = 0 then
        if db.region.take 3 = "us-" then dbStorageCostsAt cat db "us-east-2"
        else if db.region.take 3 = "eu-" then dbStorageCostsAt cat db "eu-west-2"
        else .ok [Cost.mk' none "Mo"]
      else dbStorageCostsAt cat db db.region

/-- The search base list of a recognized storage type is never empty. -/
theorem dbSearchBases_ne_nil {st : String} {bases : List String}
    (h : dbSearchBases st = .ok bases) : bases ≠ [] := by
  unfold dbSearchBases at h
  repeat' split at h
  all_goals first
    | exact Except.noConfusion h
    | (obtain rfl := Except.ok.inj h; simp)

/-- The empty pricing catalog. -/
def emptyCatalog : Catalog := ⟨[], []⟩

/-- A single-AZ gp2 database in us-west-2. -/
def dbWest : DBInstance := ⟨"us-west-2", false, "gp2", 100, 0⟩

/-- Counterexample to C4 as stated: with a catalog that matches zero SKUs
both in the own region us-west-2 and in the fallback region us-east-2,
DBInstance._storage_costs raises a SKU-cardinality error instead of
returning the claimed Cost(NaN, Mo). -/
theorem db_fallback_nan_counterexample :
    dbStorageCosts emptyCatalog dbWest =
      .error (.skuCardinality 0 [("usagetype", "USE2-RDS:GP2-Storage")] 1) ∧
    ¬ dbStorageCosts emptyCatalog dbWest = .ok [Cost.mk' none "Mo"] := by
  constructor <;> decide

/-- C4 (amended): when zero SKUs match the storage filters in the own
region and no fallback has been attempted, resolution is retried with the
fixed reference region of the continent marker (us to us-east-2, eu to
eu-west-2), and a region with neither marker yields Cost(NaN, Mo) without
raising; but a fallback attempt that itself matches zero SKUs fails with
a SKU-cardinality error rather than producing Cost(NaN, Mo). -/
theorem db_fallback_policy (cat : Catalog) (db : DBInstance)
    (bases : List String) (ru : String)
    (hb : dbSearchBases db.storage_type = .ok bases)
    (hru : region_usagetype.lookup db.region = some ru)
    (hzero : (skuMatchesIn cat (mkSearchTypes ru (dbPre db) bases)).length = 0) :
    (db.region.take 3 = "us-" →
      dbStorageCosts cat db = dbStorageCostsAt cat db "us-east-2") ∧
    (db.region.take 3 ≠ "us-" → db.region.take 3 = "eu-" →
      dbStorageCosts cat db = dbStorageCostsAt cat db "eu-west-2") ∧
    (db.region.take 3 ≠ "us-" → db.region.take 3 ≠ "eu-" →
      dbStorageCosts cat db = .ok [Cost.mk' none "Mo"]) ∧
    (∀ (r ru2 : String), region_usagetype.lookup r = some ru2 →
      (skuMatchesIn cat (mkSearchTypes ru2 (dbPre db) bases)).length = 0 →
      dbStorageCostsAt cat db r =
        .error (.skuCardinality 0
          ((mkSearchTypes ru2 (dbPre db) bases).map (fun t => ("usagetype", t)))
          (mkSearchTypes ru2 (dbPre db) bases).length)) := by
  have hmain : dbStorageCosts cat db =
      (if db.region.take 3 = "us-" then dbStorageCostsAt cat db "us-east-2"
       else if db.region.take 3 = "eu-" then dbStorageCostsAt cat db "eu-west-2"
       else .ok [Cost.mk' none "Mo"]) := by
    unfold dbStorageCosts
    simp [hb, hru, hzero]
  refine ⟨fun hus => ?_, fun hnus heu => ?_, fun hnus hneu => ?_,
    fun r ru2 hru2 hz2 => ?_⟩
  · rw [hmain, if_pos hus]
  · rw [hmain, if_neg hnus, if_pos heu]
  · rw [hmain, if_neg hnus, if_neg hneu]
  · have hlen : (mkSearchTypes ru2 (dbPre db) bases).length = bases.length := by
      simp [mkSearchTypes]
    have hne : (0 : Nat) ≠ (mkSearchTypes ru2 (dbPre db) bases).length := by
      rw [hlen]
      intro hh
      exact dbSearchBases_ne_nil hb (List.eq_nil_of_length_eq_zero hh.symm)
    unfold dbStorageCostsAt
    simp [hb, hru2, hz2, hne]

/-- Witness for db_fallback_policy: the us-west-2 gp2 database against the
empty catalog retries in us-east-2, where the zero-match attempt fails
with a cardinality error. -/
theorem db_fallback_policy_witness :
    dbStorageCosts emptyCatalog dbWest = dbStorageCostsAt emptyCatalog dbWest "us-east-2" ∧
    dbStorageCostsAt emptyCatalog dbWest "us-east-2" =
      .error (.skuCardinality 0
        ((mkSearchTypes "USE2-" (dbPre dbWest) ["GP2-Storage"]).map
          (fun t => ("usagetype", t)))
        (mkSearchTypes "USE2-" (dbPre dbWest) ["GP2-Storage"]).length) :=
  ⟨(db_fallback_policy emptyCatalog dbWest ["GP2-Storage"] "USW2-"
      (by decide) (by decide) (by decide)).1 (by decide),
   (db_fallback_policy emptyCatalog dbWest ["GP2-Storage"] "USW2-"
      (by decide) (by decide) (by decide)).2.2.2 "us-east-2" "USE2-"
      (by decide) (by decide)⟩

/-- One report row of build_instance_cost_table: the textual columns and
the numeric columns (costs already rendered in the report period; the
disk-GB column is the integral total_storage and is never NaN). -/
structure Row where
  name : String
  id : String
  az : String
  type : String
  typeCost : Option ℚ
  diskGB : ℚ
  diskCost : Option ℚ
  runningCost : Option ℚ
  state : String
  actualCost : Option ℚ
deriving DecidableEq, Repr

/-- Python sum over a float column: start from 0 and fold with fadd, so
one NaN cell poisons the whole sum. -/
def fsum (l : List (Option ℚ)) : Option ℚ := l.foldl fadd (some 0)

/-- The synthetic Total row of print_instance_cost_table: each numeric
column is the column-wise sum over the table rows. -/
def totalRow (t : List Row) : Row :=
  { name := "Total", id := "", az := "", type := "", state := "",
    typeCost := fsum (t.map (·.typeCost)),
    diskGB := (t.map (·.diskGB)).sum,
    diskCost := fsum (t.map (·.diskCost)),
    runningCost := fsum (t.map (·.runningCost)),
    actualCost := fsum (t.map (·.actualCost)) }

/-- The table printed when total=True: the sorted rows with the Total row
appended. -/
def tableWithTotal (t : List Row) : List Row := t ++ [totalRow t]

/-- Folding fadd from a NaN accumulator stays NaN. -/
theorem foldl_fadd_none (l : List (Option ℚ)) : l.foldl fadd none = none := by
  induction l with
  | nil => rfl
  | cons x l ih => simpa [fadd] using ih

/-- A NaN cell anywhere makes the fadd-fold NaN. -/
theorem fsum_none_of_mem {l : List (Option ℚ)} (h : none ∈ l) : fsum l = none := by
  unfold fsum
  generalize (some 0 : Option ℚ) = acc
  induction l generalizing acc with
  | nil => simp at h
  | cons x l ih =>
    rcases List.mem_cons.mp h with hx | hl
    · subst hx
      cases acc <;> simpa [List.foldl, fadd] using foldl_fadd_none l
    · exact ih hl _

/-- A column with no NaN cell sums to the plain rational sum. -/
theorem fsum_some {l : List (Option ℚ)} (h : ∀ x ∈ l, x ≠ none) :
    fsum l = some ((l.map (fun x => x.getD 0)).sum) := by
  unfold fsum
  have main : ∀ (a : ℚ), l.foldl fadd (some a) =
      some (a + (l.map (fun x => x.getD 0)).sum) := by
    induction l with
    | nil => simp
    | cons x l ih =>
      intro a
      obtain ⟨q, hq⟩ := Option.ne_none_iff_exists.mp (h x (by simp))
      have ihx := fun a => ih (fun y hy => h y (by simp [hy])) a
      subst hq
      simp [List.foldl, fadd, ihx, add_assoc]
  simpa using main 0

/-- C8: the synthetic Total row is the column-wise fadd-sum of the other
rows, so a NaN cell in any row makes the corresponding Total column NaN
instead of the sum of the resolvable rows, while an all-finite column sums
normally. -/
theorem total_row_nan :
    (∀ t : List Row,
      (totalRow t).typeCost = fsum (t.map (·.typeCost)) ∧
      (totalRow t).diskGB = (t.map (·.diskGB)).sum ∧
      (totalRow t).diskCost = fsum (t.map (·.diskCost)) ∧
      (totalRow t).runningCost = fsum (t.map (·.runningCost)) ∧
      (totalRow t).actualCost = fsum (t.map (·.actualCost)) ∧
      tableWithTotal t = t ++ [totalRow t]) ∧
    (∀ (t : List Row) (r : Row), r ∈ t → r.diskCost = none →
      (totalRow t).diskCost = none) ∧
    (∀ (t : List Row) (r : Row), r ∈ t → r.actualCost = none →
      (totalRow t).actualCost = none) ∧
    (∀ (t : List Row) (r : Row), r ∈ t → r.typeCost = none →
      (totalRow t).typeCost = none) ∧
    (∀ t : List Row, (∀ r ∈ t, r.diskCost ≠ none) →
      (totalRow t).diskCost =
        some ((t.map (fun r => r.diskCost.getD 0)).sum)) := by
  refine ⟨fun t => ⟨rfl, rfl, rfl, rfl, rfl, rfl⟩, fun t r hr hc => ?_, fun t r hr hc => ?_,
    fun t r hr hc => ?_, fun t h => ?_⟩
  · exact fsum_none_of_mem (by simpa [← hc] using List.mem_map_of_mem (·.diskCost) hr)
  · exact fsum_none_of_mem (by simpa [← hc] using List.mem_map_of_mem (·.actualCost) hr)
  · exact fsum_none_of_mem (by simpa [← hc] using List.mem_map_of_mem (·.typeCost) hr)
  · have := fsum_some (l := t.map (·.diskCost)) (by
      intro x hx
      obtain ⟨r, hr, rfl⟩ := List.mem_map.mp hx
      exact h r hr)
    simpa [List.map_map, Function.comp_def] using this

/-- A row with every cost cell finite. -/
def rowFinite : Row :=
  ⟨"a", "i-1", "az1", "m5.large", some 1, 10, some 2, some 3, "running", some 3⟩

/-- A row whose disk cost is the NaN sentinel. -/
def rowNaN : Row :=
  ⟨"b", "i-2", "az1", "m5.large", some 1, 10, none, some 3, "stopped", some 3⟩

/-- Witness for total_row_nan: one NaN disk cell poisons the Total disk
column, and an all-finite table sums normally. -/
theorem total_row_nan_witness :
    (totalRow [rowFinite, rowNaN]).diskCost = none ∧
    (totalRow [rowFinite, rowFinite]).diskCost =
      some (([rowFinite, rowFinite].map (fun r => r.diskCost.getD 0)).sum) :=
  ⟨total_row_nan.2.1 [rowFinite, rowNaN] rowNaN (by simp) rfl,
   total_row_nan.2.2.2.2 [rowFinite, rowFinite] (by decide)⟩

/-- One sortable report row: the display name and the rendered effective
cost (the last column, which is the sort key column). This models the
rows whose effective costs are finite; a NaN cost makes Python float
comparisons vacuous and the sort order unspecified. -/
structure ReportRow where
  name : String
  cost : ℚ
deriving DecidableEq, Repr

/-- Code-point comparison of characters, as Python compares strings. -/
def charLTb (a b : Char) : Bool := decide (a.toNat < b.toNat)

/-- Lexicographic code-point order on character lists: Python string
comparison. -/
def listLTb : List Char → List Char → Bool
  | [], [] => false
  | [], _ :: _ => true
  | _ :: _, [] => false
  | a :: as, b :: bs =>
    if charLTb a b then true else if charLTb b a then false else listLTb as bs

/-- Python string less-or-equal: equal or lexicographically smaller. -/
def strLE (a b : String) : Bool := a == b || listLTb a.data b.data

/-- Lexicographic order is asymmetric. -/
theorem listLTb_asymm : ∀ as bs, listLTb as bs = true → listLTb bs as = false
  | [], [] => by simp [listLTb]
  | [], _ :: _ => by simp [listLTb]
  | _ :: _, [] => by simp [listLTb]
  | a :: as, b :: bs => by
    intro h
    rcases Nat.lt_trichotomy a.toNat b.toNat with hab | hab | hab
    · simp [listLTb, charLTb, hab, Nat.lt_asymm hab]
    · have h1 : ¬ a.toNat < b.toNat := by omega
      have h2 : ¬ b.toNat < a.toNat := by omega
      simp [listLTb, charLTb, h1, h2] at h ⊢
      exact listLTb_asymm as bs h
    · simp [listLTb, charLTb, hab, Nat.lt_asymm hab] at h

/-- Lexicographic order is transitive. -/
theorem listLTb_trans : ∀ as bs cs, listLTb as bs = true → listLTb bs cs = true →
    listLTb as cs = true
  | [], [], [] => by simp [listLTb]
  | [], [], _ :: _ => by simp [listLTb]
  | [], _ :: _, [] => by simp [listLTb]
  | [], _ :: _, _ :: _ => by simp [listLTb]
  | _ :: _, [], _ => by simp [listLTb]
  | _ :: _, _ :: _, [] => by simp [listLTb]
  | a :: as, b :: bs, c :: cs => by
    intro h1 h2
    rcases Nat.lt_trichotomy a.toNat b.toNat with hab | hab | hab
    · rcases Nat.lt_trichotomy b.toNat c.toNat with hbc | hbc | hbc
      · simp [listLTb, charLTb, Nat.lt_trans hab hbc]
      · simp [listLTb, charLTb, hbc ▸ hab]
      · simp [listLTb, charLTb, hbc, Nat.lt_asymm hbc] at h2
    · have e1 : ¬ a.toNat < b.toNat := by omega
      have e2 : ¬ b.toNat < a.toNat := by omega
      simp [listLTb, charLTb, e1, e2] at h1
      rcases Nat.lt_trichotomy b.toNat c.toNat with hbc | hbc | hbc
      · simp [listLTb, charLTb, hab ▸ hbc]
      · have e3 : ¬ b.toNat < c.toNat := by omega
        have e4 : ¬ c.toNat < b.toNat := by omega
        simp [listLTb, charLTb, e3, e4] at h2
        have e5 : ¬ a.toNat < c.toNat := by omega
        have e6 : ¬ c.toNat < a.toNat := by omega
        simp [listLTb, charLTb, e5, e6]
        exact listLTb_trans as bs cs h1 h2
      · simp [listLTb, charLTb, hbc, Nat.lt_asymm hbc] at h2
    · simp [listLTb, charLTb, hab, Nat.lt_asymm hab] at h1

/-- Lexicographic order is total on distinct lists. -/
theorem listLTb_total : ∀ as bs : List Char, as ≠ bs →
    listLTb as bs = true ∨ listLTb bs as = true
  | [], [], h => absurd rfl h
  | [], _ :: _, _ => Or.inl (by simp [listLTb])
  | _ :: _, [], _ => Or.inr (by simp [listLTb])
  | a :: as, b :: bs, h => by
    rcases Nat.lt_trichotomy a.toNat b.toNat with hab | hab | hab
    · exact Or.inl (by simp [listLTb, charLTb, hab])
    · have heq : a = b := Char.ext (UInt32.toNat.inj hab)
      subst heq
      have htl : as ≠ bs := fun hh => h (by rw [hh])
      have e1 : ¬ a.toNat < a.toNat := by omega
      rcases listLTb_total as bs htl with h1 | h1
      · exact Or.inl (by simp [listLTb, charLTb, e1, h1])
      · exact Or.inr (by simp [listLTb, charLTb, e1, h1])
    · exact Or.inr (by simp [listLTb, charLTb, hab])

/-- Sort order of print_instance_cost_table: Python sorts ascending and
stably by the key (-cost, name), that is cost descending with name
ascending as tie-break. -/
def RowLE (x y : ReportRow) : Prop :=
  y.cost < x.cost ∨ (x.cost = y.cost ∧ strLE x.name y.name = true)

instance : DecidableRel RowLE := fun x y => by
  unfold RowLE; infer_instance

/-- strLE is total. -/
theorem strLE_total (a b : String) : strLE a b = true ∨ strLE b a = true := by
  by_cases h : a = b
  · subst h
    simp [strLE]
  · have hd : a.data ≠ b.data := fun hh => h (congrArg String.mk hh)
    rcases listLTb_total a.data b.data hd with h1 | h1
    · exact Or.inl (by simp [strLE, h1])
    · exact Or.inr (by simp [strLE, h1])

/-- strLE is transitive. -/
theorem strLE_trans {a b c : String} (h1 : strLE a b = true) (h2 : strLE b c = true) :
    strLE a c = true := by
  simp only [strLE, Bool.or_eq_true, beq_iff_eq] at h1 h2 ⊢
  rcases h1 with rfl | h1
  · exact h2
  · rcases h2 with rfl | h2
    · exact Or.inr h1
    · exact Or.inr (listLTb_trans _ _ _ h1 h2)

/-- strLE is antisymmetric. -/
theorem strLE_antisymm {a b : String} (h1 : strLE a b = true) (h2 : strLE b a = true) :
    a = b := by
  simp only [strLE, Bool.or_eq_true, beq_iff_eq] at h1 h2
  rcases h1 with rfl | h1
  · rfl
  · rcases h2 with rfl | h2
    · rfl
    · have := listLTb_asymm _ _ h1
      rw [h2] at this
      exact absurd this (by simp)

instance : IsTotal ReportRow RowLE where
  total x y := by
    unfold RowLE
    rcases lt_trichotomy x.cost y.cost with h | h | h
    · exact Or.inr (Or.inl h)
    · rcases strLE_total x.name y.name with hn | hn
      · exact Or.inl (Or.inr ⟨h, hn⟩)
      · exact Or.inr (Or.inr ⟨h.symm, hn⟩)
    · exact Or.inl (Or.inl h)

instance : IsTrans ReportRow RowLE where
  trans x y z hxy hyz := by
    unfold RowLE at *
    rcases hxy with h1 | ⟨e1, n1⟩
    · rcases hyz with h2 | ⟨e2, n2⟩
      · exact Or.inl (h2.trans h1)
      · exact Or.inl (e2 ▸ h1)
    · rcases hyz with h2 | ⟨e2, n2⟩
      · exact Or.inl (e1 ▸ h2)
      · exact Or.inr ⟨e1.trans e2, strLE_trans n1 n2⟩

/-- The sort of print_instance_cost_table, modelled with a stable
insertion sort (Python list.sort is stable, and every stable sort agrees
with every other on a total preorder). -/
def sortTable (t : List ReportRow) : List ReportRow := List.insertionSort RowLE t

/-- C9: the report rows are a permutation of the input sorted by effective
cost descending with name ascending as tie-break, the comparator is a
total order on (cost, name), and the concrete b(10), a(10), c(5) scenario
sorts to a, b, c. -/
theorem report_ordering :
    (∀ t : List ReportRow, (sortTable t).Perm t) ∧
    (∀ t : List ReportRow, (sortTable t).Sorted RowLE) ∧
    (∀ x y : ReportRow, RowLE x y ∨ RowLE y x) ∧
    (∀ x y : ReportRow, RowLE x y → RowLE y x → x.cost = y.cost ∧ x.name = y.name) ∧
    sortTable [⟨"b", 10⟩, ⟨"a", 10⟩, ⟨"c", 5⟩] = [⟨"a", 10⟩, ⟨"b", 10⟩, ⟨"c", 5⟩] := by
  refine ⟨fun t => List.perm_insertionSort RowLE t,
    fun t => List.sorted_insertionSort RowLE t,
    fun x y => IsTotal.total x y, fun x y hxy hyx => ?_, by decide⟩
  rcases hxy with h1 | ⟨e1, n1⟩
  · rcases hyx with h2 | ⟨e2, n2⟩
    · exact absurd (h1.trans h2) (lt_irrefl _)
    · exact absurd (e2 ▸ h1) (lt_irrefl _)
  · rcases hyx with h2 | ⟨e2, n2⟩
    · exact absurd (e1 ▸ h2) (lt_irrefl _)
    · exact ⟨e1, strLE_antisymm n1 n2⟩

/-- Witness for report_ordering at the three-row scenario. -/
theorem report_ordering_witness :
    (sortTable [⟨"b", 10⟩, ⟨"a", 10⟩, ⟨"c", 5⟩]).Perm
      [⟨"b", 10⟩, ⟨"a", 10⟩, ⟨"c", 5⟩] ∧
    ((⟨"a", 10⟩ : ReportRow).cost = (⟨"a", 10⟩ : ReportRow).cost ∧
      (⟨"a", 10⟩ : ReportRow).name = (⟨"a", 10⟩ : ReportRow).name) :=
  ⟨report_ordering.1 [⟨"b", 10⟩, ⟨"a", 10⟩, ⟨"c", 5⟩],
   report_ordering.2.2.2.1 ⟨"a", 10⟩ ⟨"a", 10⟩ (by decide) (by decide)⟩

end PriceEc2

